import Mathlib

/-!
Verification development for the `pywrap` Cython wrapper generator.

Python strings are embedded as `List Char`.  The helpers `pyReplaceF` /
`pySplitAux` reproduce the semantics of Python's `str.replace(pat, rep)` and
`str.split(pat)` for a non-empty pattern `p :: ps`: both scan the original
string from the left, and on a match continue after the matched occurrence.
They are written with an explicit fuel argument (initialised to the string
length, which always suffices) so that every definition is structurally
recursive and kernel-evaluable.
-/

set_option autoImplicit false

abbrev Str := List Char

def chars (s : String) : Str := s.toList

instance {ε α : Type} [DecidableEq ε] [DecidableEq α] : DecidableEq (Except ε α) := fun a b =>
  match a, b with
  | Except.ok x, Except.ok y =>
    if h : x = y then isTrue (by rw [h]) else isFalse (by intro hc; cases hc; exact h rfl)
  | Except.error x, Except.error y =>
    if h : x = y then isTrue (by rw [h]) else isFalse (by intro hc; cases hc; exact h rfl)
  | Except.ok _, Except.error _ => isFalse (by intro hc; cases hc)
  | Except.error _, Except.ok _ => isFalse (by intro hc; cases hc)

/-- Fuel-driven core of Python's `str.replace(pat, rep)` for pattern `p :: ps`. -/
def pyReplaceF (p : Char) (ps rep : Str) : Nat → Str → Str
  | _, [] => []
  | 0, l => l
  | n + 1, c :: rest =>
    if (p :: ps).isPrefixOf (c :: rest) then
      rep ++ pyReplaceF p ps rep n (rest.drop ps.length)
    else
      c :: pyReplaceF p ps rep n rest

/-- Python's `s.replace(pat, rep)` with non-empty pattern `p :: ps`. -/
def pyReplace (p : Char) (ps rep : Str) (s : Str) : Str :=
  pyReplaceF p ps rep s.length s

/-- Fuel-driven core of Python's `str.split(pat)` for pattern `p :: ps`;
`cur` is the reversed current segment. -/
def pySplitAux (p : Char) (ps : Str) : Nat → Str → Str → List Str
  | _, cur, [] => [cur.reverse]
  | 0, cur, rest => [cur.reverse ++ rest]
  | n + 1, cur, c :: rest =>
    if (p :: ps).isPrefixOf (c :: rest) then
      cur.reverse :: pySplitAux p ps n [] (rest.drop ps.length)
    else
      pySplitAux p ps n (c :: cur) rest

/-- Python's `s.split(pat)` with non-empty pattern `p :: ps`. -/
def pySplitList (p : Char) (ps : Str) (s : Str) : List Str :=
  pySplitAux p ps s.length [] s

/-- Decides whether the non-empty pattern `p :: ps` occurs as a contiguous
substring of `s`. -/
def containsSub (p : Char) (ps : Str) : Str → Bool
  | [] => false
  | c :: rest => (p :: ps).isPrefixOf (c :: rest) || containsSub p ps rest

/-! ## `pywrap/cpptypeconv.py` -/

/-- `is_basic_type` from `pywrap/cpptypeconv.py`: membership in the fixed
primitive set. -/
def is_basic_type (t : Str) : Bool :=
  t = chars "int" || t = chars "unsigned int" || t = chars "long" ||
  t = chars "unsigned long" || t = chars "float" || t = chars "double"

/-- `is_type_with_automatic_conversion` from `pywrap/cpptypeconv.py`. -/
def is_type_with_automatic_conversion (t : Str) : Bool :=
  is_basic_type t || t = chars "bool" || t = chars "string"

/-- `_remove_const_modifier`: Python `tname.replace("const ", "")`. -/
def _remove_const_modifier (t : Str) : Str :=
  pyReplace 'c' (chars "onst ") [] t

/-- `_remove_reference_modifier`: Python `tname.replace(" &", "")`. -/
def _remove_reference_modifier (t : Str) : Str :=
  pyReplace ' ' (chars "&") [] t

/-- `_remove_namespace`: Python `tname.split("::")[-1]`. -/
def _remove_namespace (t : Str) : Str :=
  (pySplitList ':' (chars ":") t).getLastD []

/-- `_replace_angle_brackets`: Python `tname.replace("<", "[").replace(">", "]")`. -/
def _replace_angle_brackets (t : Str) : Str :=
  pyReplace '>' [] [']'] (pyReplace '<' [] ['['] t)

/-- `typename` from `pywrap/cpptypeconv.py`: the type-string normalizer. -/
def typename (t : Str) : Str :=
  _replace_angle_brackets (_remove_namespace (_remove_reference_modifier
    (_remove_const_modifier t)))

/-- `cython_define_basic_inputarg` from `pywrap/cpptypeconv.py`:
`"cdef %s %s = %s"`. -/
def cython_define_basic_inputarg (cython_tname cython_argname python_argname : Str) : Str :=
  chars "cdef " ++ cython_tname ++ chars " " ++ cython_argname ++ chars " = " ++
    python_argname

/-- `cython_define_nparray1d_inputarg` from `pywrap/cpptypeconv.py` (text of the
two generated `cdef` lines, without the literal template braces). -/
def cython_define_nparray1d_inputarg (cython_tname cython_argname python_argname : Str) : Str :=
  chars "cdef np.ndarray[double, ndim=1] " ++ python_argname ++ chars "_array" ++
    chars " = np.asarray(" ++ python_argname ++ chars ")" ++ [Char.ofNat 10] ++
    chars "cdef " ++ cython_tname ++ chars " " ++ cython_argname ++
    chars " = &" ++ python_argname ++ chars "_array" ++ chars "[0]" ++ [Char.ofNat 10]

/-! ## Entity tree (spec section 3, read-only input produced by the external
parser, `pywrap/parser.py`) -/

structure Param where
  name : Str
  tipe : Str
deriving DecidableEq

structure CppField where
  name : Str
  tipe : Str
  class_name : Str
deriving DecidableEq

structure Ctor where
  name : Str
  class_name : Str
  arguments : List Param
deriving DecidableEq

structure Method where
  name : Str
  class_name : Str
  arguments : List Param
  result_type : Str
deriving DecidableEq

structure FreeFunction where
  name : Str
  arguments : List Param
  result_type : Str
deriving DecidableEq

structure Clazz where
  name : Str
  fields : List CppField
  constructors : List Ctor
  methods : List Method
deriving DecidableEq

structure Enum where
  name : Str
  constants : List Str
deriving DecidableEq

structure Typedef where
  tipe : Str
  underlying_type : Str
deriving DecidableEq

structure Ast where
  enums : List Enum
  typedefs : List Typedef
  classes : List Clazz
  structs : List Clazz
  functions : List FreeFunction
deriving DecidableEq

/-- Global symbol table handed to the implementation exporter: the recognized
class names and the typedef alias map (`classes`, `typedefs` collected in
`pywrap/cython.py`). -/
structure TypeInfo where
  classes : List Str
  typedefs : List (Str × Str)
deriving DecidableEq

/-- Modelled from the spec: the configuration object of `pywrap/defaultconfig.py`
(absent from the sources) reduced to the two rename tables the exporter reads:
`operators` (native operator name to managed special-method name) and
`call_operators` (managed call name back to the native symbol). -/
structure Config where
  operators : List (Str × Str)
  call_operators : List (Str × Str)
deriving DecidableEq

/-- Association-list lookup with a default, mirroring Python `dict.get(k, d)`. -/
def lookupD (table : List (Str × Str)) (key dflt : Str) : Str :=
  match table.find? (fun kv => kv.1 == key) with
  | some kv => kv.2
  | none => dflt

/-- One-step typedef-alias resolution over the symbol table. -/
def resolve_typedef (ti : TypeInfo) (t : Str) : Str :=
  match ti.typedefs.find? (fun kv => kv.1 == t) with
  | some kv => kv.2
  | none => t

/-- Base name driving converter selection: the normalized type string with
typedef aliases resolved (spec section 3: aliases are resolved during
normalization). -/
def base_name (ti : TypeInfo) (tipe : Str) : Str :=
  resolve_typedef ti (typename tipe)

/-! ## Type converter registry

`pywrap/type_conversion.py` (`create_type_converter`) is imported by
`pywrap/exporter.py` but is not among the provided sources, so the registry is
modelled from the spec (sections 3 and 4.2). -/

/-- Modelled from the spec: the five converter variants of section 4.2
(`Unsupported` is represented by the `Except.error` result of selection). -/
inductive ConvVariant where
  | scalar
  | autoConvertible
  | arrayPointer
  | classByRef
  | voidType
deriving DecidableEq

/-- Modelled from the spec: the data each `TypeConverter` instance records
(section 3): raw-parameter consumption `n_cpp_args`, the managed-side parameter
declaration, the pre-call conversion statements, the call-argument expressions,
and the two possible return-handling texts for the output role.  `arg_name`
keeps the declared parameter the converter was created for. -/
structure TypeConverter where
  variant : ConvVariant
  n_cpp_args : Nat
  arg_name : Option Str
  python_type_decl : Str
  python_to_cpp : Str
  cpp_call_args : List Str
  cpp_type_decl : Str
  return_output_copy : Str
  return_output_ref : Str
deriving DecidableEq

/-- `TypeConverter.return_output(copy)`: pick the copy or the live-reference
return-handling text. -/
def TypeConverter.return_output (c : TypeConverter) (copy : Bool) : Str :=
  if copy then c.return_output_copy else c.return_output_ref

/-- Modelled from the spec: the scalar variant (section 4.2 rule 1): no
conversion statements, the call argument is the parameter itself, one raw
parameter consumed. -/
def scalarConverter (t : Str) (name : Option Str) : TypeConverter :=
  { variant := ConvVariant.scalar
    n_cpp_args := 1
    arg_name := name
    python_type_decl := t ++ chars " " ++ name.getD []
    python_to_cpp := []
    cpp_call_args := match name with | some nm => [nm] | none => []
    cpp_type_decl := t
    return_output_copy := chars "return result"
    return_output_ref := chars "return result" }

/-- Modelled from the spec: the auto-convertible variant (section 4.2 rule 2):
same zero-conversion behavior as scalar, distinct variant tag. -/
def autoConverter (t : Str) (name : Option Str) : TypeConverter :=
  { scalarConverter t name with variant := ConvVariant.autoConvertible }

/-- Modelled from the spec: the array+length variant (section 4.2 rule 3):
consumes 2 raw parameters, exposes one managed-side array parameter, emits one
pre-call statement, and passes the address of the first element plus the length
as the two native call arguments. -/
def arrayConverter (elemT : Str) (name : Str) : TypeConverter :=
  { variant := ConvVariant.arrayPointer
    n_cpp_args := 2
    arg_name := some name
    python_type_decl := chars "np.ndarray[double, ndim=1] " ++ name
    python_to_cpp :=
      cython_define_nparray1d_inputarg (elemT ++ chars " *") (name ++ chars "_ptr") name
    cpp_call_args := [name ++ chars "_ptr", name ++ chars "_array.shape[0]"]
    cpp_type_decl := elemT ++ chars " *"
    return_output_copy := chars "return result"
    return_output_ref := chars "return result" }

/-- Modelled from the spec: the recognized-class variant (section 4.2 rule 4):
passed by reference via the managed wrapper's handle; the output role records
copy versus live-reference return handling. -/
def classByRefConverter (t : Str) (name : Option Str) : TypeConverter :=
  { variant := ConvVariant.classByRef
    n_cpp_args := 1
    arg_name := name
    python_type_decl := t ++ chars " " ++ name.getD []
    python_to_cpp := []
    cpp_call_args := match name with | some nm => [chars "deref(" ++ nm ++ chars ".thisptr)"] | none => []
    cpp_type_decl := t
    return_output_copy := chars "return wrap-as-copy(result)"
    return_output_ref := chars "return wrap-as-reference(result)" }

/-- Modelled from the spec: the converter used for an empty (void) result type
descriptor; its empty `cpp_type_decl` makes the callable emit a bare call. -/
def voidConverter (name : Option Str) : TypeConverter :=
  { variant := ConvVariant.voidType
    n_cpp_args := 1
    arg_name := name
    python_type_decl := []
    python_to_cpp := []
    cpp_call_args := []
    cpp_type_decl := []
    return_output_copy := []
    return_output_ref := [] }

/-- Strip the trailing `" *"` of a pointer type string. -/
def ptr_elem (t : Str) : Str := t.take (t.length - 2)

/-- Recognize a pointer-to-scalar type string such as `"double *"`. -/
def is_ptr_to_basic (t : Str) : Bool :=
  (chars " *").isSuffixOf t && is_basic_type (ptr_elem t)

/-- The integral count types accepted as the second half of an array+length
pattern. -/
def is_integral_type (t : Str) : Bool :=
  t = chars "int" || t = chars "unsigned int" || t = chars "long" ||
  t = chars "unsigned long"

/-- Modelled from the spec: the one-parameter lookahead of section 4.2 rule 3 —
the array+length pattern fires only when the pointer parameter at index `i` is
immediately followed by a declared integral count parameter. -/
def array_pattern_ok (ti : TypeInfo) (t : Str) (context : Option (List Param × Nat)) : Bool :=
  is_ptr_to_basic t &&
    match context with
    | some (args, i) =>
      match args.get? (i + 1) with
      | some nxt => is_integral_type (base_name ti nxt.tipe)
      | none => false
    | none => false

/-- Modelled from the spec: `create_type_converter` of
`pywrap/type_conversion.py` (absent from the sources), following the selection
policy of spec section 4.2 in priority order — scalar, auto-convertible,
array+length (with one-parameter lookahead), recognized class by reference, and
otherwise a raised `UnsupportedType` (an `Except.error`).  A `none` or
`"void"` result type yields the void converter (spec section 4.4 step 5). -/
def create_type_converter (tipe : Option Str) (name : Option Str) (ti : TypeInfo)
    (context : Option (List Param × Nat)) : Except Str TypeConverter :=
  match tipe with
  | none => Except.ok (voidConverter name)
  | some tp =>
    let t := base_name ti tp
    if t = chars "void" then Except.ok (voidConverter name)
    else if is_basic_type t then Except.ok (scalarConverter t name)
    else if t = chars "bool" || t = chars "string" then Except.ok (autoConverter t name)
    else if array_pattern_ok ti t context then
      Except.ok (arrayConverter (ptr_elem t) (name.getD []))
    else if ti.classes.contains t then Except.ok (classByRefConverter t name)
    else Except.error (chars "No type converter available for type '" ++ t ++ chars "'.")

/-! ## Callable builders (`pywrap/exporter.py`, `FunctionDefinition` and its
subclasses) -/

/-- Modelled from the spec: `from_camel_case` of `pywrap/utils.py` (absent from
the sources; behavior fixed by spec section 8: `"MyFunctionName"` and
`"myFunctionName"` both map to `"my_function_name"`, idempotent on converted
names): every uppercase letter is lowercased with an underscore inserted before
it, except that no underscore is inserted before the leading character. -/
def from_camel_case (s : Str) : Str :=
  let e := (s.map (fun c => if c.isUpper then ['_', c.toLower] else [c])).flatten
  match s with
  | c :: _ => if c.isUpper then e.drop 1 else e
  | [] => []

/-- Which callable-builder subclass a definition was built by (`FunctionDefinition`,
`ConstructorDefinition`, `MethodDefinition`, `SetterDefinition`,
`GetterDefinition`), with the class and field names those subclasses store. -/
inductive DefKind where
  | freeFn
  | ctorDef (class_name : Str)
  | methodDef (class_name : Str)
  | setterDef (class_name field_name : Str)
  | getterDef (class_name field_name : Str)
deriving DecidableEq

/-- The state of a built callable: the fields `FunctionDefinition.__init__`
assigns (name, arguments, the created type converters, the output converter,
and `output_is_copy`). -/
structure FunctionDef where
  name : Str
  kind : DefKind
  arguments : List Param
  type_converters : List TypeConverter
  output_type_converter : TypeConverter
  output_is_copy : Bool
deriving DecidableEq

/-- The converter-creation loop of `FunctionDefinition._create_type_converters`
(`pywrap/exporter.py`): walk the declared parameters in order with a `skip`
counter, so a converter consuming `n_cpp_args()` raw parameters makes the loop
pass over the next `n_cpp_args() - 1` parameters. -/
def convLoop (ti : TypeInfo) (allArgs : List Param) :
    List Param → Nat → Nat → Except Str (List TypeConverter)
  | [], _, _ => Except.ok []
  | a :: rest, i, skip =>
    if skip > 0 then convLoop ti allArgs rest (i + 1) (skip - 1)
    else
      match create_type_converter (some a.tipe) (some a.name) ti (some (allArgs, i)) with
      | Except.error e => Except.error e
      | Except.ok c =>
        match convLoop ti allArgs rest (i + 1) (c.n_cpp_args - 1) with
        | Except.error e => Except.error e
        | Except.ok r => Except.ok (c :: r)

/-- `output_is_copy` as left by construction: `FunctionDefinition.__init__`
sets it to `True`; `GetterDefinition.__init__` resets it to `False`. -/
def output_is_copy_default (kind : DefKind) : Bool :=
  match kind with
  | DefKind.getterDef _ _ => false
  | _ => true

/-- `FunctionDefinition.__init__` together with `_create_type_converters`:
create the input converters (propagating a raised `UnsupportedType`), then the
output converter for the result type. -/
def mkFunctionDefinition (kind : DefKind) (name : Str) (arguments : List Param)
    (result_type : Option Str) (ti : TypeInfo) : Except Str FunctionDef :=
  match convLoop ti arguments arguments 0 0 with
  | Except.error e => Except.error e
  | Except.ok tcs =>
    match create_type_converter result_type none ti none with
    | Except.error e => Except.error e
    | Except.ok otc =>
      Except.ok ⟨name, kind, arguments, tcs, otc, output_is_copy_default kind⟩

/-- `ConstructorDefinition`: name `"__init__"`, no result type. -/
def mkConstructorDefinition (class_name : Str) (arguments : List Param)
    (ti : TypeInfo) : Except Str FunctionDef :=
  mkFunctionDefinition (DefKind.ctorDef class_name) (chars "__init__") arguments none ti

/-- `MethodDefinition`. -/
def mkMethodDefinition (class_name name : Str) (arguments : List Param)
    (result_type : Str) (ti : TypeInfo) : Except Str FunctionDef :=
  mkFunctionDefinition (DefKind.methodDef class_name) name arguments (some result_type) ti

/-- `SetterDefinition`: name `"set_<field>"`, the field as the single
parameter, result type `"void"`. -/
def mkSetterDefinition (f : CppField) (ti : TypeInfo) : Except Str FunctionDef :=
  mkFunctionDefinition (DefKind.setterDef f.class_name f.name)
    (chars "set_" ++ f.name) [⟨f.name, f.tipe⟩] (some (chars "void")) ti

/-- `GetterDefinition`: name `"get_<field>"`, no parameters, the field type as
result type, `output_is_copy = False`. -/
def mkGetterDefinition (f : CppField) (ti : TypeInfo) : Except Str FunctionDef :=
  mkFunctionDefinition (DefKind.getterDef f.class_name f.name)
    (chars "get_" ++ f.name) [] (some f.tipe) ti

/-- The slots of the rendered callable that `FunctionDefinition.make` fills
(`pywrap/templates.py` is absent from the sources, so the rendering is kept
structural: one record field per template slot). -/
structure RenderedFunction where
  def_prefix : Str
  name : Str
  args : List Str
  input_conversions : List Str
  call : Str
  return_output : Str
deriving DecidableEq

/-- `catch_result` from `pywrap/exporter.py`: an empty result type declaration
yields the bare call, otherwise the call result is bound to a temporary. -/
def catch_result (result_type_decl call : Str) : Str :=
  if result_type_decl = [] then call
  else chars "cdef " ++ result_type_decl ++ chars " result = " ++ call

/-- Python `", ".join(...)`. -/
def joinComma (l : List Str) : Str := List.intercalate (chars ", ") l

/-- The `initial_args` each subclass prepends to the managed-side signature
(`"<ClassName> self"` for members, nothing for free functions). -/
def initial_args (kind : DefKind) : List Str :=
  match kind with
  | DefKind.freeFn => []
  | DefKind.ctorDef cn => [cn ++ chars " self"]
  | DefKind.methodDef cn => [cn ++ chars " self"]
  | DefKind.setterDef cn _ => [cn ++ chars " self"]
  | DefKind.getterDef cn _ => [cn ++ chars " self"]

/-- The per-subclass `_call_cpp_function` overrides: plain call, placement
construction, method call through the operator-rename table, field write, and
field read. -/
def call_expr (cfg : Config) (d : FunctionDef) (call_args : List Str) : Str :=
  match d.kind with
  | DefKind.freeFn =>
    catch_result d.output_type_converter.cpp_type_decl
      (d.name ++ chars "(" ++ joinComma call_args ++ chars ")")
  | DefKind.ctorDef cn =>
    chars "self.thisptr = new " ++ cn ++ chars "(" ++ joinComma call_args ++ chars ")"
  | DefKind.methodDef _ =>
    catch_result d.output_type_converter.cpp_type_decl
      (chars "self.thisptr." ++ lookupD cfg.call_operators d.name d.name ++
        chars "(" ++ joinComma call_args ++ chars ")")
  | DefKind.setterDef _ field_name =>
    chars "self.thisptr." ++ field_name ++ chars " = " ++ call_args.headD []
  | DefKind.getterDef _ field_name =>
    catch_result d.output_type_converter.cpp_type_decl (chars "self.thisptr." ++ field_name)

/-- `FunctionDefinition._def_prefix`: special methods (leading and trailing
double underscore) get `def`, everything else `cpdef`. -/
def is_special_method (n : Str) : Bool :=
  (chars "__").isPrefixOf n && (chars "__").isSuffixOf n

/-- `FunctionDefinition.make` with `_signature`, `_input_type_conversions` and
the subclass `_call_cpp_function`: one signature declaration per converter, the
ordered conversion statements, the native call built from the concatenated
call-argument expressions, and the return handling chosen by
`output_type_converter.return_output(output_is_copy)`. -/
def makeDef (cfg : Config) (d : FunctionDef) : RenderedFunction :=
  let fname := from_camel_case (lookupD cfg.operators d.name d.name)
  { def_prefix := if is_special_method fname then chars "def" else chars "cpdef"
    name := fname
    args := initial_args d.kind ++ d.type_converters.map TypeConverter.python_type_decl
    input_conversions := d.type_converters.map TypeConverter.python_to_cpp
    call := call_expr cfg d (d.type_converters.map TypeConverter.cpp_call_args).flatten
    return_output := d.output_type_converter.return_output d.output_is_copy }

/-! ## Implementation emission visitor (`CythonImplementationExporter`) -/

/-- One entry of the implementation visitor's `fields` buffer
(`visit_field`). -/
structure FieldEntry where
  name : Str
  getter : RenderedFunction
  setter : RenderedFunction
deriving DecidableEq

/-- The class block handed to the `"class"` template on `visit_class`. -/
structure ClassBlock where
  name : Str
  fields : List FieldEntry
  ctors : List RenderedFunction
  methods : List RenderedFunction
deriving DecidableEq

/-- One piece of the implementation artifact's top-level output. -/
inductive OutputItem where
  | enumItem (name : Str) (constants : List Str)
  | funcItem (f : RenderedFunction)
  | classItem (b : ClassBlock)
deriving DecidableEq

/-- The mutable state of `CythonImplementationExporter`; Python's global
`warnings.warn` is modelled as an explicit warning log in the state. -/
structure ImplState where
  output : List OutputItem
  ctors : List RenderedFunction
  methods : List RenderedFunction
  fields : List FieldEntry
  warnings : List Str
deriving DecidableEq

def emptyImplState : ImplState := ⟨[], [], [], [], []⟩

/-- Componentwise concatenation of two visitor states. -/
def ImplState.append (s t : ImplState) : ImplState :=
  ⟨s.output ++ t.output, s.ctors ++ t.ctors, s.methods ++ t.methods,
    s.fields ++ t.fields, s.warnings ++ t.warnings⟩

/-- The body of `visit_field`'s `try` block: build the setter definition, then
the getter definition (in that order, as in the source), propagating the first
raised `UnsupportedType`. -/
def buildFieldEntry (ti : TypeInfo) (cfg : Config) (f : CppField) : Except Str FieldEntry :=
  match mkSetterDefinition f ti with
  | Except.error e => Except.error e
  | Except.ok sd =>
    match mkGetterDefinition f ti with
    | Except.error e => Except.error e
    | Except.ok gd => Except.ok ⟨from_camel_case f.name, makeDef cfg gd, makeDef cfg sd⟩

/-- `CythonImplementationExporter.visit_field`: on success append one entry
holding both accessors; on failure record one warning and change nothing
else. -/
def visit_fieldI (ti : TypeInfo) (cfg : Config) (st : ImplState) (f : CppField) : ImplState :=
  match buildFieldEntry ti cfg f with
  | Except.ok fe => { st with fields := st.fields ++ [fe] }
  | Except.error e =>
    { st with warnings :=
        st.warnings ++ [e ++ chars " Ignoring field '" ++ f.name ++ chars "'"] }

/-- `CythonImplementationExporter.visit_constructor`. -/
def visit_constructorI (ti : TypeInfo) (cfg : Config) (st : ImplState) (c : Ctor) : ImplState :=
  match mkConstructorDefinition c.class_name c.arguments ti with
  | Except.ok d => { st with ctors := st.ctors ++ [makeDef cfg d] }
  | Except.error e =>
    { st with warnings :=
        st.warnings ++ [e ++ chars " Ignoring method '" ++ c.name ++ chars "'"] }

/-- `CythonImplementationExporter.visit_method`. -/
def visit_methodI (ti : TypeInfo) (cfg : Config) (st : ImplState) (m : Method) : ImplState :=
  match mkMethodDefinition m.class_name m.name m.arguments m.result_type ti with
  | Except.ok d => { st with methods := st.methods ++ [makeDef cfg d] }
  | Except.error e =>
    { st with warnings :=
        st.warnings ++ [e ++ chars " Ignoring method '" ++ m.name ++ chars "'"] }

/-- `CythonImplementationExporter.visit_function`: successful free functions go
straight to the top-level output. -/
def visit_functionI (ti : TypeInfo) (cfg : Config) (st : ImplState) (fn : FreeFunction) : ImplState :=
  match mkFunctionDefinition DefKind.freeFn fn.name fn.arguments (some fn.result_type) ti with
  | Except.ok d => { st with output := st.output ++ [OutputItem.funcItem (makeDef cfg d)] }
  | Except.error e =>
    { st with warnings :=
        st.warnings ++ [e ++ chars " Ignoring function '" ++ fn.name ++ chars "'"] }

/-- `CythonImplementationExporter.visit_enum`. -/
def visit_enumI (st : ImplState) (e : Enum) : ImplState :=
  { st with output := st.output ++ [OutputItem.enumItem e.name e.constants] }

/-- Modelled from the spec: the synthesized no-argument default constructor
body (`templates.ctor_default_def`; `pywrap/templates.py` is absent from the
sources). -/
def defaultCtorRendered (c : Clazz) : RenderedFunction :=
  { def_prefix := chars "def"
    name := chars "__init__"
    args := [c.name ++ chars " self"]
    input_conversions := []
    call := chars "self.thisptr = new " ++ c.name ++ chars "()"
    return_output := [] }

/-- The warning text of `visit_class` for a class with more than one
constructor. -/
def multiCtorWarning (class_name : Str) : Str :=
  chars "Class '" ++ class_name ++
    chars "' has more than one constructor. This is not compatible to Python. The last constructor will overwrite all others."

/-- `CythonImplementationExporter.visit_class`: warn once when more than one
constructor accumulated, synthesize a default constructor when none did, emit
the class block from the accumulated buffers, and reset the buffers. -/
def visit_classI (st : ImplState) (c : Clazz) : ImplState :=
  let warns :=
    if st.ctors.length > 1 then st.warnings ++ [multiCtorWarning c.name] else st.warnings
  let cs := if st.ctors.length = 0 then st.ctors ++ [defaultCtorRendered c] else st.ctors
  { output := st.output ++ [OutputItem.classItem ⟨c.name, st.fields, cs, st.methods⟩]
    ctors := []
    methods := []
    fields := []
    warnings := warns }

/-- A class member or free function as dispatched to the implementation
visitor. -/
inductive Member where
  | fieldM (f : CppField)
  | ctorM (c : Ctor)
  | methodM (m : Method)
  | funcM (f : FreeFunction)
deriving DecidableEq

def visitMember (ti : TypeInfo) (cfg : Config) (st : ImplState) : Member → ImplState
  | Member.fieldM f => visit_fieldI ti cfg st f
  | Member.ctorM c => visit_constructorI ti cfg st c
  | Member.methodM m => visit_methodI ti cfg st m
  | Member.funcM f => visit_functionI ti cfg st f

/-- Visiting a sequence of members in declaration order. -/
def runMembers (ti : TypeInfo) (cfg : Config) (st : ImplState) (ms : List Member) : ImplState :=
  ms.foldl (visitMember ti cfg) st

def isErr {α : Type} : Except Str α → Bool
  | Except.error _ => true
  | Except.ok _ => false

/-- Whether converter selection raises for the given member (for a field:
for its setter or its getter). -/
def memberFails (ti : TypeInfo) (cfg : Config) : Member → Bool
  | Member.fieldM f => isErr (buildFieldEntry ti cfg f)
  | Member.ctorM c => isErr (mkConstructorDefinition c.class_name c.arguments ti)
  | Member.methodM m => isErr (mkMethodDefinition m.class_name m.name m.arguments m.result_type ti)
  | Member.funcM f => isErr (mkFunctionDefinition DefKind.freeFn f.name f.arguments (some f.result_type) ti)

/-! ## Declaration emission visitor (`CythonDeclarationExporter`) -/

/-- The structural class block handed to the `"class_decl"` template on
`visit_class`, including its `empty_body` marker. -/
structure ClassDeclBlock where
  name : Str
  fields : List Str
  ctors : List Str
  methods : List Str
  empty_body : Bool
deriving DecidableEq

/-- One piece of the declaration artifact's top-level output. -/
inductive DeclItem where
  | enumDecl (name : Str) (constants : List Str)
  | typedefDecl (tipe underlying_type : Str)
  | funcDecl (s : Str)
  | classDecl (b : ClassDeclBlock)
deriving DecidableEq

/-- The mutable state of `CythonDeclarationExporter`. -/
structure DeclState where
  output : List DeclItem
  ctors : List Str
  methods : List Str
  arguments : List Str
  fields : List Str
deriving DecidableEq

def emptyDeclState : DeclState := ⟨[], [], [], [], []⟩

/-- `replace_operator_decl` from `pywrap/exporter.py`: known call operators are
rewritten to `<renamed> "<original>"`. -/
def replace_operator_decl (method_name : Str) (cfg : Config) : Str :=
  match cfg.call_operators.find? (fun kv => kv.1 == method_name) with
  | some kv => kv.2 ++ chars " \"" ++ method_name ++ chars "\""
  | none => method_name

/-- Modelled from the spec: `templates.field_decl` (`pywrap/templates.py` is
absent from the sources); a structural line from the member's type and name. -/
def field_decl_text (f : CppField) : Str := f.tipe ++ chars " " ++ f.name

/-- Modelled from the spec: `templates.arg_decl`. -/
def arg_decl_text (p : Param) : Str := p.tipe ++ chars " " ++ p.name

/-- Modelled from the spec: `templates.constructor_decl`. -/
def constructor_decl_text (name : Str) (args : List Str) : Str :=
  name ++ chars "(" ++ joinComma args ++ chars ")"

/-- Modelled from the spec: `templates.method_decl` / `templates.function_decl`. -/
def method_decl_text (result_type name : Str) (args : List Str) : Str :=
  result_type ++ chars " " ++ name ++ chars "(" ++ joinComma args ++ chars ")"

/-- `CythonDeclarationExporter.visit_field`: unconditional append. -/
def visit_fieldD (st : DeclState) (f : CppField) : DeclState :=
  { st with fields := st.fields ++ [field_decl_text f] }

/-- `CythonDeclarationExporter.visit_param`: unconditional append. -/
def visit_paramD (st : DeclState) (p : Param) : DeclState :=
  { st with arguments := st.arguments ++ [arg_decl_text p] }

/-- `CythonDeclarationExporter.visit_constructor`: consume the accumulated
argument buffer, append unconditionally. -/
def visit_constructorD (st : DeclState) (c : Ctor) : DeclState :=
  { st with ctors := st.ctors ++ [constructor_decl_text c.name st.arguments]
            arguments := [] }

/-- `CythonDeclarationExporter.visit_method`: operator names rewritten through
the rename table, append unconditionally. -/
def visit_methodD (cfg : Config) (st : DeclState) (m : Method) : DeclState :=
  { st with methods := st.methods ++
      [method_decl_text m.result_type (replace_operator_decl m.name cfg) st.arguments]
            arguments := [] }

/-- `CythonDeclarationExporter.visit_function`: free functions go straight to
the top-level output. -/
def visit_functionD (st : DeclState) (fn : FreeFunction) : DeclState :=
  { st with output := st.output ++
      [DeclItem.funcDecl (method_decl_text fn.result_type fn.name st.arguments)]
            arguments := [] }

/-- `CythonDeclarationExporter.visit_enum`. -/
def visit_enumD (st : DeclState) (e : Enum) : DeclState :=
  { st with output := st.output ++ [DeclItem.enumDecl e.name e.constants] }

/-- `CythonDeclarationExporter.visit_typedef`. -/
def visit_typedefD (st : DeclState) (td : Typedef) : DeclState :=
  { st with output := st.output ++ [DeclItem.typedefDecl td.tipe td.underlying_type] }

/-- `CythonDeclarationExporter.visit_class`: emit one block from the
accumulated buffers, marked empty exactly when nothing was accumulated, then
reset the buffers. -/
def visit_classD (st : DeclState) (c : Clazz) : DeclState :=
  { st with
    output := st.output ++ [DeclItem.classDecl
      ⟨c.name, st.fields, st.ctors, st.methods,
        st.fields.length + st.methods.length + st.ctors.length == 0⟩]
    fields := []
    ctors := []
    methods := [] }

/-! ## Traversal

The traversal `ast.accept(exporter)` is implemented by the external parser
(`pywrap/parser.py`, absent from the sources); it is modelled from the spec:
entities are visited in declaration order — enums, typedefs, each class or
struct (fields, then constructors, then methods, parameters before their
callable), then free functions.  In this source snapshot the orchestration in
`pywrap/cython.py` constructs the exporters with the wrong arity and aborts
before any visit (see `make_cython_wrapper` below), so these passes are
exercised by the member-level theorems rather than through the orchestration
function. -/

def classMembers (c : Clazz) : List Member :=
  c.fields.map Member.fieldM ++ c.constructors.map Member.ctorM ++
    c.methods.map Member.methodM

def runImplClass (ti : TypeInfo) (cfg : Config) (st : ImplState) (c : Clazz) : ImplState :=
  visit_classI (runMembers ti cfg st (classMembers c)) c

/-- One implementation-exporter pass over an entity tree
(`ast.accept(CythonImplementationExporter(...))` followed by `export`). -/
def runImplAst (ti : TypeInfo) (cfg : Config) (a : Ast) : ImplState :=
  let st1 := a.enums.foldl visit_enumI emptyImplState
  let st2 := (a.classes ++ a.structs).foldl (runImplClass ti cfg) st1
  a.functions.foldl (visit_functionI ti cfg) st2

def runDeclParams (st : DeclState) (ps : List Param) : DeclState :=
  ps.foldl visit_paramD st

def runDeclCtor (st : DeclState) (c : Ctor) : DeclState :=
  visit_constructorD (runDeclParams st c.arguments) c

def runDeclMethod (cfg : Config) (st : DeclState) (m : Method) : DeclState :=
  visit_methodD cfg (runDeclParams st m.arguments) m

def runDeclFunction (st : DeclState) (fn : FreeFunction) : DeclState :=
  visit_functionD (runDeclParams st fn.arguments) fn

def runDeclClass (cfg : Config) (st : DeclState) (c : Clazz) : DeclState :=
  visit_classD
    (c.methods.foldl (runDeclMethod cfg)
      (c.constructors.foldl runDeclCtor (c.fields.foldl visit_fieldD st))) c

/-- One declaration-exporter pass over an entity tree. -/
def runDeclAst (cfg : Config) (a : Ast) : DeclState :=
  let st1 := a.enums.foldl visit_enumD emptyDeclState
  let st2 := a.typedefs.foldl visit_typedefD st1
  let st3 := (a.classes ++ a.structs).foldl (runDeclClass cfg) st2
  a.functions.foldl runDeclFunction st3

/-! ## Orchestration (`pywrap/cython.py`) -/

/-- `_derive_module_name_from` from `pywrap/cython.py`:
`filename.split(os.sep)[-1].split(".")[0]` with `os.sep = '/'`. -/
def _derive_module_name_from (filename : Str) : Str :=
  (pySplitList '.' [] ((pySplitList '/' [] filename).getLastD [])).headD []

/-- `_collect_classes`: all class and struct names of all entity trees. -/
def collect_classes (asts : List Ast) : List Str :=
  (asts.map (fun a => a.classes.map Clazz.name)).flatten ++
    (asts.map (fun a => a.structs.map Clazz.name)).flatten

/-- `_collect_typedefs`: the typedef alias map of all entity trees. -/
def collect_typedefs (asts : List Ast) : List (Str × Str) :=
  (asts.map (fun a => a.typedefs.map (fun td => (td.tipe, td.underlying_type)))).flatten

/-- A produced artifact. `setup.py` is kept structural (its text only rewrites
the given paths relative to the target directory). -/
inductive Artifact where
  | implFile (items : List OutputItem)
  | declFile (items : List DeclItem)
  | setupFile (filenames : List Str) (modulename : Str)
deriving DecidableEq

/-- The `filenames` argument of `make_cython_wrapper`: a single string or a
list of strings. -/
inductive FilenamesArg where
  | str (s : Str)
  | list (l : List Str)
deriving DecidableEq

def missingModuleNameError : Str :=
  chars "Please give a module name when there are multiple C++ files that you want to wrap."

/-- The uncaught `TypeError` raised by `_generate_extension`:
`pywrap/cython.py` constructs `CythonImplementationExporter(classes, typedefs)`
against `CythonImplementationExporter.__init__(self, includes, type_info,
config)` in `pywrap/exporter.py` (and `_generate_declarations` later constructs
`CythonDeclarationExporter()` against `__init__(self, includes, config)`), so
the first iteration of the generation loop raises before any entity is
visited. -/
def exporterArityTypeError : Str :=
  chars "TypeError: __init__() takes exactly 4 arguments (3 given)"

/-- `make_cython_wrapper` from `pywrap/cython.py`.  `parse` stands for the
external parser (`pywrap/parser.py`, absent from the sources) and is a
parameter, so every theorem quantified over `parse` holds regardless of what
parsing would return; the `target` and `verbose` parameters only affect on-disk
paths and logging and are omitted.  After the module-name check and parsing,
`_generate_extension` runs `CythonImplementationExporter(classes, typedefs)`
for each entity tree, which raises the arity `TypeError` above on the first
tree; like the module-name `ValueError`, the uncaught exception aborts the run
with no results, modelled as an `Except.error`.  Only when the input list is
empty (and a module name was given) does the loop body never run, so the run
returns empty artifacts. -/
def make_cython_wrapper (parse : Str → Ast) (filenames0 : FilenamesArg)
    (modulename0 : Option Str) : Except Str (List (Str × Artifact) × List Str) :=
  let filenames :=
    match filenames0 with
    | FilenamesArg.str s => [s]
    | FilenamesArg.list l => l
  let modulename :=
    if filenames.length = 1 ∧ modulename0 = none then
      some (_derive_module_name_from (filenames.headD []))
    else modulename0
  match modulename with
  | none => Except.error missingModuleNameError
  | some mn =>
    let asts := filenames.map parse
    match asts with
    | _ :: _ => Except.error exporterArityTypeError
    | [] =>
      let pyx_filename := mn ++ chars ".pyx"
      Except.ok ([(pyx_filename, Artifact.implFile []),
                  (chars "_declarations.pxd", Artifact.declFile []),
                  (chars "setup.py", Artifact.setupFile filenames mn)],
                 [pyx_filename])

/-- A parser stub returning an empty entity tree; used only to instantiate
universally quantified theorems at concrete inputs. -/
def trivialParse : Str → Ast := fun _ => ⟨[], [], [], [], []⟩

/-! ## Specification-side and auxiliary definitions used by the theorems -/

/-- The character-level substitution performed by `_replace_angle_brackets`. -/
def bracketChar (c : Char) : Char :=
  if c = '<' then '[' else if c = '>' then ']' else c

/-- Modelled from the claim C5 read literally: drop only a LEADING `"const "`
qualifier, drop only a TRAILING `" &"` reference marker, strip to the final
namespace segment, rewrite the angle brackets. -/
def typenameClaimC5 (t : Str) : Str :=
  let t1 := if (chars "const ").isPrefixOf t then t.drop 6 else t
  let t2 := if (chars " &").isSuffixOf t1 then t1.take (t1.length - 2) else t1
  (_remove_namespace t2).map bracketChar

/-- Summed raw-parameter consumption of a converter list. -/
def sumN (cs : List TypeConverter) : Nat :=
  (cs.map TypeConverter.n_cpp_args).sum

/-- Check that converter `k` was created from the declared parameter at the
index given by the summed consumption of the converters before it (so a
converter consuming `N` raw parameters makes the next converter start exactly
`N` parameters later). -/
def checkBlocksFrom (allArgs : List Param) : Nat → List TypeConverter → Bool
  | _, [] => true
  | i, c :: r =>
    (match allArgs.get? i with
     | some a => c.arg_name == some a.name
     | none => false) && checkBlocksFrom allArgs (i + c.n_cpp_args) r

/-- Modelled from the spec: in the managed runtime's class body, repeated
definitions of the same initializer name shadow earlier ones (the recorded
warning says "the last constructor will overwrite all others"), so the
runtime-effective definition among the emitted ones is the last. -/
def effective_ctor (ctors : List RenderedFunction) : Option RenderedFunction :=
  ctors.getLast?

/-- Modelled from the claim C7 read literally: the base name (final path
segment) stripped of its extension — the suffix starting at the LAST dot,
when the base name has one. -/
def claimC7_strip (filename : Str) : Str :=
  let b := (pySplitList '/' [] filename).getLastD []
  if b.contains '.' then ((b.reverse.dropWhile (fun c => !(c == '.'))).drop 1).reverse
  else b

/-- Example inputs used to instantiate theorems at concrete values: an
array+length pair followed by a scalar parameter. -/
def demoArgs : List Param :=
  [⟨chars "a", chars "double *"⟩, ⟨chars "n", chars "int"⟩, ⟨chars "b", chars "double"⟩]

def demoTI : TypeInfo := ⟨[chars "A"], []⟩

def demoCfg : Config := ⟨[], []⟩

/-- Example classes and visitor states for concrete instantiations. -/
def demoClassA : Clazz := ⟨chars "A", [], [], []⟩

def demoClassB : Clazz := ⟨chars "B", [], [], []⟩

def demoCtorState2 : ImplState :=
  { emptyImplState with
    ctors := [defaultCtorRendered demoClassA, defaultCtorRendered demoClassB] }

def demoCtorState1 : ImplState :=
  { emptyImplState with ctors := [defaultCtorRendered demoClassA] }

def demoCtorDef : FunctionDef :=
  ⟨chars "__init__", DefKind.ctorDef (chars "A"), [], [], voidConverter none, true⟩

/-- A field with an unsupported type (`FooBar` is not a recognized class) and
a trivially supported free function, for concrete instantiation. -/
def demoBadField : CppField := ⟨chars "x", chars "FooBar", chars "A"⟩

def demoFn : FreeFunction := ⟨chars "f", [], chars "void"⟩

/-! ## Lemmas about the Python string primitives -/

theorem pyReplaceF_congr (p : Char) (ps rep : Str) :
    ∀ n m s, s.length ≤ n → s.length ≤ m →
      pyReplaceF p ps rep n s = pyReplaceF p ps rep m s := by
  intro n
  induction n with
  | zero =>
    intro m s h1 _
    have hs : s = [] := List.eq_nil_of_length_eq_zero (Nat.le_zero.mp h1)
    subst hs
    cases m <;> rfl
  | succ n ih =>
    intro m s h1 h2
    cases s with
    | nil => cases m <;> rfl
    | cons c rest =>
      cases m with
      | zero => exact absurd h2 (by simp)
      | succ m' =>
        simp only [pyReplaceF]
        by_cases hp : (p :: ps).isPrefixOf (c :: rest) = true
        · rw [if_pos hp, if_pos hp]
          have hd : (rest.drop ps.length).length ≤ n := by
            have := List.length_drop ps.length rest
            have hr : rest.length ≤ n := Nat.le_of_succ_le_succ (by simpa using h1)
            omega
          have hd' : (rest.drop ps.length).length ≤ m' := by
            have := List.length_drop ps.length rest
            have hr : rest.length ≤ m' := Nat.le_of_succ_le_succ (by simpa using h2)
            omega
          rw [ih m' (rest.drop ps.length) hd hd']
        · rw [if_neg hp, if_neg hp]
          have hr : rest.length ≤ n := Nat.le_of_succ_le_succ (by simpa using h1)
          have hr' : rest.length ≤ m' := Nat.le_of_succ_le_succ (by simpa using h2)
          rw [ih m' rest hr hr']

theorem pyReplaceF_not_contains (p : Char) (ps rep : Str) :
    ∀ n s, s.length ≤ n → containsSub p ps s = false →
      pyReplaceF p ps rep n s = s := by
  intro n
  induction n with
  | zero =>
    intro s h1 _
    have hs : s = [] := List.eq_nil_of_length_eq_zero (Nat.le_zero.mp h1)
    subst hs; rfl
  | succ n ih =>
    intro s h1 hc
    cases s with
    | nil => rfl
    | cons c rest =>
      simp only [containsSub, Bool.or_eq_false_iff] at hc
      simp only [pyReplaceF]
      rw [if_neg (by simp [hc.1])]
      have hr : rest.length ≤ n := Nat.le_of_succ_le_succ (by simpa using h1)
      rw [ih rest hr hc.2]

theorem pyReplace_not_contains (p : Char) (ps rep : Str) (s : Str)
    (hc : containsSub p ps s = false) : pyReplace p ps rep s = s :=
  pyReplaceF_not_contains p ps rep s.length s (Nat.le_refl _) hc

theorem pySplitAux_not_contains (p : Char) (ps : Str) :
    ∀ n cur s, s.length ≤ n → containsSub p ps s = false →
      pySplitAux p ps n cur s = [cur.reverse ++ s] := by
  intro n
  induction n with
  | zero =>
    intro cur s h1 _
    have hs : s = [] := List.eq_nil_of_length_eq_zero (Nat.le_zero.mp h1)
    subst hs; simp [pySplitAux]
  | succ n ih =>
    intro cur s h1 hc
    cases s with
    | nil => simp [pySplitAux]
    | cons c rest =>
      simp only [containsSub, Bool.or_eq_false_iff] at hc
      simp only [pySplitAux]
      rw [if_neg (by simp [hc.1])]
      have hr : rest.length ≤ n := Nat.le_of_succ_le_succ (by simpa using h1)
      rw [ih (c :: cur) rest hr hc.2]
      simp

theorem remove_namespace_not_contains (s : Str)
    (hc : containsSub ':' (chars ":") s = false) : _remove_namespace s = s := by
  unfold _remove_namespace pySplitList
  rw [pySplitAux_not_contains ':' (chars ":") s.length [] s (Nat.le_refl _) hc]
  rfl

theorem pyReplaceF_single (a b : Char) :
    ∀ n s, s.length ≤ n →
      pyReplaceF a [] [b] n s = s.map (fun c => if c = a then b else c) := by
  intro n
  induction n with
  | zero =>
    intro s h1
    have hs : s = [] := List.eq_nil_of_length_eq_zero (Nat.le_zero.mp h1)
    subst hs; rfl
  | succ n ih =>
    intro s h1
    cases s with
    | nil => rfl
    | cons c rest =>
      have hr : rest.length ≤ n := Nat.le_of_succ_le_succ (by simpa using h1)
      simp only [pyReplaceF, List.map_cons]
      by_cases hca : c = a
      · subst hca
        have hp : ([c] : Str).isPrefixOf (c :: rest) = true := by
          simp [List.isPrefixOf]
        rw [if_pos hp, if_pos rfl]
        simp only [List.length_nil, List.drop_zero]
        rw [ih rest hr]
        rfl
      · have hp : ¬(([a] : Str).isPrefixOf (c :: rest) = true) := by
          simp [List.isPrefixOf]
          intro h
          exact absurd h.symm hca
        rw [if_neg hp, if_neg hca]
        rw [ih rest hr]

theorem replace_angle_brackets_eq_map (s : Str) :
    _replace_angle_brackets s = s.map bracketChar := by
  unfold _replace_angle_brackets pyReplace
  rw [pyReplaceF_single '<' '[' s.length s (Nat.le_refl _)]
  rw [pyReplaceF_single '>' ']' _ _ (Nat.le_refl _)]
  rw [List.map_map]
  apply List.map_congr_left
  intro c _
  by_cases h1 : c = '<'
  · subst h1; rfl
  · by_cases h2 : c = '>'
    · subst h2; rfl
    · simp [Function.comp, bracketChar, h1, h2]

theorem pySplitAux_flatten (p : Char) (ps : Str) :
    ∀ n cur s, s.length ≤ n →
      (pySplitAux p ps n cur s).flatten = cur.reverse ++ pyReplaceF p ps [] n s := by
  intro n
  induction n with
  | zero =>
    intro cur s h1
    have hs : s = [] := List.eq_nil_of_length_eq_zero (Nat.le_zero.mp h1)
    subst hs; simp [pySplitAux, pyReplaceF]
  | succ n ih =>
    intro cur s h1
    cases s with
    | nil => simp [pySplitAux, pyReplaceF]
    | cons c rest =>
      simp only [pySplitAux, pyReplaceF]
      by_cases hp : (p :: ps).isPrefixOf (c :: rest) = true
      · have hd : (rest.drop ps.length).length ≤ n := by
          have := List.length_drop ps.length rest
          have hr : rest.length ≤ n := Nat.le_of_succ_le_succ (by simpa using h1)
          omega
        rw [if_pos hp, if_pos hp, List.flatten_cons]
        rw [ih [] (rest.drop ps.length) hd]
        simp
      · have hr : rest.length ≤ n := Nat.le_of_succ_le_succ (by simpa using h1)
        rw [if_neg hp, if_neg hp]
        rw [ih (c :: cur) rest hr]
        simp

theorem pyReplace_empty_eq_flatten_split (p : Char) (ps s : Str) :
    pyReplace p ps [] s = (pySplitList p ps s).flatten := by
  unfold pyReplace pySplitList
  rw [pySplitAux_flatten p ps s.length [] s (Nat.le_refl _)]
  rfl

theorem map_id_of_mem {α : Type} (f : α → α) :
    ∀ l : List α, (∀ a ∈ l, f a = a) → l.map f = l
  | [], _ => rfl
  | a :: l, h => by
    rw [List.map_cons, h a (by simp), map_id_of_mem f l (fun x hx => h x (by simp [hx]))]

theorem bracketChar_ne_angle (c : Char) :
    bracketChar c ≠ '<' ∧ bracketChar c ≠ '>' := by
  unfold bracketChar
  by_cases h1 : c = '<'
  · simp [h1]
  · by_cases h2 : c = '>'
    · simp [h1, h2]
    · simp [h1, h2]

theorem typename_no_angle (s : Str) : ∀ c ∈ typename s, c ≠ '<' ∧ c ≠ '>' := by
  intro c hc
  unfold typename at hc
  rw [replace_angle_brackets_eq_map] at hc
  obtain ⟨a, _, rfl⟩ := List.mem_map.mp hc
  exact bracketChar_ne_angle a

theorem typename_eq_map_of_no_pattern (s : Str)
    (h1 : containsSub 'c' (chars "onst ") s = false)
    (h2 : containsSub ' ' (chars "&") s = false)
    (h3 : containsSub ':' (chars ":") s = false) :
    typename s = s.map bracketChar := by
  unfold typename
  rw [show _remove_const_modifier s = s from pyReplace_not_contains _ _ _ _ h1]
  rw [show _remove_reference_modifier s = s from pyReplace_not_contains _ _ _ _ h2]
  rw [remove_namespace_not_contains s h3]
  exact replace_angle_brackets_eq_map s

theorem typename_stable (t : Str)
    (h1 : containsSub 'c' (chars "onst ") t = false)
    (h2 : containsSub ' ' (chars "&") t = false)
    (h3 : containsSub ':' (chars ":") t = false)
    (h4 : ∀ c ∈ t, c ≠ '<' ∧ c ≠ '>') :
    typename t = t := by
  rw [typename_eq_map_of_no_pattern t h1 h2 h3]
  exact map_id_of_mem bracketChar t
    (fun c hc => by unfold bracketChar; simp [(h4 c hc).1, (h4 c hc).2])

/-! ## Claims C5 and C6: the type-string normalizer -/

/-- C5: the claim as stated is false — the normalizer does not drop only a
leading `const` qualifier: on `"vector<const double>"` (no leading `const`)
the code removes the embedded `"const "` and yields `"vector[double]"`, while
the claimed rules keep it and yield `"vector[const double]"`. -/
theorem c5_counterexample :
    typename (chars "vector<const double>") ≠
      typenameClaimC5 (chars "vector<const double>") := by
  decide

/-- C5 (amended): the normalizer is total and applies, in this order: (1) drop
EVERY occurrence of `"const "` (equivalently, concatenate the segments of a
split on `"const "`), (2) drop EVERY occurrence of `" &"`, (3) keep the final
`"::"`-segment, (4) substitute `'<'` with `'['` and `'>'` with `']'`
character by character. -/
theorem c5_amended_normalizer_rules :
    (∀ s : Str, typename s =
      _replace_angle_brackets (_remove_namespace (_remove_reference_modifier
        (_remove_const_modifier s)))) ∧
    (∀ s : Str, _remove_const_modifier s = (pySplitList 'c' (chars "onst ") s).flatten) ∧
    (∀ s : Str, _remove_reference_modifier s = (pySplitList ' ' (chars "&") s).flatten) ∧
    (∀ s : Str, _remove_namespace s = (pySplitList ':' (chars ":") s).getLastD []) ∧
    (∀ s : Str, _replace_angle_brackets s = s.map bracketChar) := by
  refine ⟨fun s => rfl, fun s => ?_, fun s => ?_, fun s => rfl, replace_angle_brackets_eq_map⟩
  · exact pyReplace_empty_eq_flatten_split 'c' (chars "onst ") s
  · exact pyReplace_empty_eq_flatten_split ' ' (chars "&") s

/-- C6: the claim as stated is false — `typename` is not idempotent on every
input string: removing `" &"` from `"a  &&b"` creates the new occurrence
`"a &b"`, which a second application removes. -/
theorem c6_counterexample :
    typename (typename (chars "a  &&b")) ≠ typename (chars "a  &&b") := by
  decide

/-- C6 (amended): normalization is idempotent on every string whose normalized
form contains no occurrence of `"const "`, `" &"` or `"::"` (left-to-right
removal can create such occurrences, hence the restriction), and it is
order-preserving on template arguments: the bracket rewrite substitutes
characters in place, so for bracket-free pieces the template-argument text
appears in the output unchanged and in order. -/
theorem c6_amended_idempotent_and_order :
    (∀ s : Str,
      containsSub 'c' (chars "onst ") (typename s) = false →
      containsSub ' ' (chars "&") (typename s) = false →
      containsSub ':' (chars ":") (typename s) = false →
      typename (typename s) = typename s) ∧
    (∀ base a b : Str,
      containsSub 'c' (chars "onst ")
        (base ++ ['<'] ++ a ++ chars ", " ++ b ++ ['>']) = false →
      containsSub ' ' (chars "&")
        (base ++ ['<'] ++ a ++ chars ", " ++ b ++ ['>']) = false →
      containsSub ':' (chars ":")
        (base ++ ['<'] ++ a ++ chars ", " ++ b ++ ['>']) = false →
      (∀ c ∈ base, c ≠ '<' ∧ c ≠ '>') →
      (∀ c ∈ a, c ≠ '<' ∧ c ≠ '>') →
      (∀ c ∈ b, c ≠ '<' ∧ c ≠ '>') →
      typename (base ++ ['<'] ++ a ++ chars ", " ++ b ++ ['>']) =
        base ++ ['['] ++ a ++ chars ", " ++ b ++ [']']) := by
  constructor
  · intro s h1 h2 h3
    exact typename_stable (typename s) h1 h2 h3 (typename_no_angle s)
  · intro base a b h1 h2 h3 hb ha hbb
    rw [typename_eq_map_of_no_pattern _ h1 h2 h3]
    simp only [List.map_append]
    rw [map_id_of_mem bracketChar base
        (fun c hc => by unfold bracketChar; simp [(hb c hc).1, (hb c hc).2])]
    rw [map_id_of_mem bracketChar a
        (fun c hc => by unfold bracketChar; simp [(ha c hc).1, (ha c hc).2])]
    rw [map_id_of_mem bracketChar b
        (fun c hc => by unfold bracketChar; simp [(hbb c hc).1, (hbb c hc).2])]
    rw [show List.map bracketChar ['<'] = ['['] from rfl]
    rw [show List.map bracketChar ['>'] = [']'] from rfl]
    rw [show List.map bracketChar (chars ", ") = chars ", " from by decide]

/-- Witness for C6 (amended), instantiated at a realistic type string and a
two-argument template. -/
theorem c6_amended_witness :
    typename (typename (chars "const std::vector<double> &")) =
        typename (chars "const std::vector<double> &") ∧
    typename (chars "vector" ++ ['<'] ++ chars "int" ++ chars ", " ++
        chars "double" ++ ['>']) =
      chars "vector" ++ ['['] ++ chars "int" ++ chars ", " ++ chars "double" ++ [']'] := by
  constructor
  · exact c6_amended_idempotent_and_order.1 (chars "const std::vector<double> &")
      (by decide) (by decide) (by decide)
  · exact c6_amended_idempotent_and_order.2 (chars "vector") (chars "int") (chars "double")
      (by decide) (by decide) (by decide) (by decide) (by decide) (by decide)

/-! ## Claim C1: raw-parameter consumption -/

theorem create_ok_facts (tp nm : Str) (ti : TypeInfo) (ctx : Option (List Param × Nat))
    (c : TypeConverter)
    (h : create_type_converter (some tp) (some nm) ti ctx = Except.ok c) :
    c.arg_name = some nm ∧
      (c.n_cpp_args = 1 ∨
        (c.n_cpp_args = 2 ∧ ∃ args i, ctx = some (args, i) ∧ i + 1 < args.length)) := by
  unfold create_type_converter at h
  simp only [] at h
  split_ifs at h with h1 h2 h3 h4 h5
  · cases h; exact ⟨rfl, Or.inl rfl⟩
  · cases h; exact ⟨rfl, Or.inl rfl⟩
  · cases h; exact ⟨rfl, Or.inl rfl⟩
  · cases h
    refine ⟨rfl, Or.inr ⟨rfl, ?_⟩⟩
    unfold array_pattern_ok at h4
    cases hctx : ctx with
    | none => rw [hctx] at h4; simp at h4
    | some p =>
      obtain ⟨args, i⟩ := p
      rw [hctx] at h4
      dsimp only [] at h4
      rw [Bool.and_eq_true] at h4
      refine ⟨args, i, rfl, ?_⟩
      cases hget : args.get? (i + 1) with
      | none => rw [hget] at h4; simp at h4
      | some nxt =>
        by_contra hnl
        rw [List.get?_eq_none.mpr (by omega)] at hget
        cases hget
  · cases h; exact ⟨rfl, Or.inl rfl⟩

theorem convLoop_skip (ti : TypeInfo) (allArgs : List Param) :
    ∀ k rem i, k ≤ rem.length →
      convLoop ti allArgs rem i k = convLoop ti allArgs (rem.drop k) (i + k) 0 := by
  intro k
  induction k with
  | zero => intro rem i _; rfl
  | succ k ih =>
    intro rem i hk
    cases rem with
    | nil => exact absurd hk (by simp)
    | cons a rest =>
      have step : convLoop ti allArgs (a :: rest) i (k + 1) =
          convLoop ti allArgs rest (i + 1) k := by
        simp only [convLoop]
        rw [if_pos (Nat.succ_pos k), Nat.succ_sub_one]
      rw [step, ih rest (i + 1) (Nat.le_of_succ_le_succ (by simpa using hk))]
      have harith : i + 1 + k = i + (k + 1) := by omega
      rw [harith]
      rfl

theorem get?_of_drop_cons {α : Type} (l : List α) (i : Nat) (a : α) (rest : List α)
    (h : l.drop i = a :: rest) : l.get? i = some a := by
  have h0 : (l.drop i).get? 0 = some a := by rw [h]; rfl
  rwa [List.get?_drop, Nat.add_zero] at h0

theorem drop_succ_of_drop_cons {α : Type} (l : List α) (i : Nat) (a : α) (rest : List α)
    (h : l.drop i = a :: rest) : l.drop (i + 1) = rest := by
  have : l.drop (i + 1) = (l.drop i).drop 1 := by
    rw [List.drop_drop, Nat.add_comm]
  rw [this, h]
  rfl

theorem convLoop_sound (ti : TypeInfo) (allArgs : List Param) :
    ∀ n rem i cs, rem.length ≤ n → rem = allArgs.drop i →
      convLoop ti allArgs rem i 0 = Except.ok cs →
      sumN cs = rem.length ∧ checkBlocksFrom allArgs i cs = true := by
  intro n
  induction n with
  | zero =>
    intro rem i cs h1 _ h3
    have hrem : rem = [] := List.eq_nil_of_length_eq_zero (Nat.le_zero.mp h1)
    subst hrem
    cases h3
    exact ⟨rfl, rfl⟩
  | succ n ih =>
    intro rem i cs h1 h2 h3
    cases rem with
    | nil =>
      cases h3
      exact ⟨rfl, rfl⟩
    | cons a rest =>
      simp only [convLoop] at h3
      rw [if_neg (by omega)] at h3
      cases hc : create_type_converter (some a.tipe) (some a.name) ti (some (allArgs, i)) with
      | error e => rw [hc] at h3; simp at h3
      | ok c =>
        rw [hc] at h3
        dsimp only [] at h3
        obtain ⟨hname, hn⟩ := create_ok_facts a.tipe a.name ti _ c hc
        have hget : allArgs.get? i = some a := get?_of_drop_cons allArgs i a rest h2.symm
        have hrest : allArgs.drop (i + 1) = rest := drop_succ_of_drop_cons allArgs i a rest h2.symm
        have hlen : rest.length ≤ n := Nat.le_of_succ_le_succ (by simpa using h1)
        rcases hn with hn1 | ⟨hn2, args', i', hctx, hlt⟩
        · rw [hn1] at h3
          simp only [Nat.sub_self] at h3
          cases hr : convLoop ti allArgs rest (i + 1) 0 with
          | error e => rw [hr] at h3; simp at h3
          | ok r =>
            rw [hr] at h3
            dsimp only [] at h3
            cases h3
            obtain ⟨hsum, hblocks⟩ := ih rest (i + 1) r hlen hrest.symm hr
            constructor
            · simp [sumN, hn1] at hsum ⊢
              omega
            · simp only [checkBlocksFrom, hget, hname, hn1, Bool.and_eq_true]
              exact ⟨by simp, hblocks⟩
        · cases hctx
          rw [hn2] at h3
          have hlen2 : 1 ≤ rest.length := by
            have := congrArg List.length h2
            simp only [List.length_cons, List.length_drop] at this
            omega
          rw [show (2 : Nat) - 1 = 1 from rfl] at h3
          rw [convLoop_skip ti allArgs 1 rest (i + 1) hlen2] at h3
          have hd2 : rest.drop 1 = allArgs.drop (i + 1 + 1) := by
            rw [← hrest, List.drop_drop]
          cases hr : convLoop ti allArgs (rest.drop 1) (i + 1 + 1) 0 with
          | error e => rw [hr] at h3; simp at h3
          | ok r =>
            rw [hr] at h3
            dsimp only [] at h3
            cases h3
            have hdlen : (rest.drop 1).length ≤ n := by
              rw [List.length_drop]
              omega
            obtain ⟨hsum, hblocks⟩ := ih (rest.drop 1) (i + 1 + 1) r hdlen hd2 hr
            constructor
            · simp only [sumN, List.map_cons, List.sum_cons, hn2] at hsum ⊢
              rw [List.length_drop] at hsum
              simp only [List.length_cons]
              omega
            · simp only [checkBlocksFrom, hget, hname, hn2, Bool.and_eq_true]
              refine ⟨by simp, ?_⟩
              have : i + 2 = i + 1 + 1 := by omega
              rw [this]
              exact hblocks

/-- C1: for every callable built by the shared builder (free functions,
methods, constructors, getters and setters all funnel their declared argument
list through `mkFunctionDefinition`), when construction succeeds the summed
raw-parameter consumption `n_cpp_args` of the created converters equals the
declared arity, and every converter is created from the declared parameter
whose index is the summed consumption of the converters before it — so a
converter consuming `N > 1` raw parameters makes the loop skip exactly the
next `N - 1` declared parameters.  The closing conjunct evaluates a concrete
three-parameter callable whose array+length pattern consumes `2 + 1 = 3`. -/
theorem c1_consumption_equals_arity :
    (∀ (kind : DefKind) (nm : Str) (args : List Param) (result_type : Option Str)
        (ti : TypeInfo),
      (mkFunctionDefinition kind nm args result_type ti).map
          (fun d => sumN d.type_converters) =
        (mkFunctionDefinition kind nm args result_type ti).map (fun _ => args.length)) ∧
    (∀ (kind : DefKind) (nm : Str) (args : List Param) (result_type : Option Str)
        (ti : TypeInfo),
      (mkFunctionDefinition kind nm args result_type ti).map
          (fun d => checkBlocksFrom args 0 d.type_converters) =
        (mkFunctionDefinition kind nm args result_type ti).map (fun _ => true)) ∧
    (mkFunctionDefinition DefKind.freeFn (chars "f") demoArgs (some (chars "void"))
        demoTI).map (fun d => sumN d.type_converters) = Except.ok 3 := by
  have key : ∀ (kind : DefKind) (nm : Str) (args : List Param)
      (result_type : Option Str) (ti : TypeInfo) (d : FunctionDef),
      mkFunctionDefinition kind nm args result_type ti = Except.ok d →
      sumN d.type_converters = args.length ∧
        checkBlocksFrom args 0 d.type_converters = true := by
    intro kind nm args result_type ti d h
    unfold mkFunctionDefinition at h
    cases hl : convLoop ti args args 0 0 with
    | error e => rw [hl] at h; simp at h
    | ok tcs =>
      rw [hl] at h
      dsimp only [] at h
      cases ho : create_type_converter result_type none ti none with
      | error e => rw [ho] at h; simp at h
      | ok otc =>
        rw [ho] at h
        dsimp only [] at h
        cases h
        exact convLoop_sound ti args args.length args 0 tcs (Nat.le_refl _)
          (List.drop_zero args).symm hl
  refine ⟨?_, ?_, by decide⟩
  · intro kind nm args result_type ti
    cases h : mkFunctionDefinition kind nm args result_type ti with
    | error e => rfl
    | ok d =>
      simp only [Except.map]
      exact congrArg Except.ok (key kind nm args result_type ti d h).1
  · intro kind nm args result_type ti
    cases h : mkFunctionDefinition kind nm args result_type ti with
    | error e => rfl
    | ok d =>
      simp only [Except.map]
      exact congrArg Except.ok (key kind nm args result_type ti d h).2

/-- C3: for every parameter whose type's resolved base name is in the fixed
primitive set, the selected converter is the scalar variant: the generated
input conversion is empty, the call-argument expression passed to the native
call is exactly the parameter name, and the converter consumes exactly 1 raw
parameter. -/
theorem c3_scalar_identity_passthrough (tipe nm : Str) (ti : TypeInfo)
    (ctx : Option (List Param × Nat))
    (h : is_basic_type (base_name ti tipe) = true) :
    create_type_converter (some tipe) (some nm) ti ctx =
      Except.ok (scalarConverter (base_name ti tipe) (some nm)) ∧
    (scalarConverter (base_name ti tipe) (some nm)).python_to_cpp = [] ∧
    (scalarConverter (base_name ti tipe) (some nm)).cpp_call_args = [nm] ∧
    (scalarConverter (base_name ti tipe) (some nm)).n_cpp_args = 1 := by
  have hvoid : ¬(base_name ti tipe = chars "void") := by
    intro hv
    rw [hv] at h
    exact absurd h (by decide)
  refine ⟨?_, rfl, rfl, rfl⟩
  unfold create_type_converter
  dsimp only []
  rw [if_neg hvoid, if_pos h]

/-- Witness for C3 at the concrete parameter `int x`. -/
theorem c3_witness :
    is_basic_type (base_name ⟨[], []⟩ (chars "int")) = true ∧
    (create_type_converter (some (chars "int")) (some (chars "x")) ⟨[], []⟩ none =
        Except.ok (scalarConverter (base_name ⟨[], []⟩ (chars "int")) (some (chars "x"))) ∧
      (scalarConverter (base_name ⟨[], []⟩ (chars "int")) (some (chars "x"))).python_to_cpp = [] ∧
      (scalarConverter (base_name ⟨[], []⟩ (chars "int")) (some (chars "x"))).cpp_call_args =
        [chars "x"] ∧
      (scalarConverter (base_name ⟨[], []⟩ (chars "int")) (some (chars "x"))).n_cpp_args = 1) :=
  ⟨by decide,
    c3_scalar_identity_passthrough (chars "int") (chars "x") ⟨[], []⟩ none (by decide)⟩

/-- C9: every field getter is built with `output_is_copy = False` while every
other callable builder leaves the constructed default `True`; the rendered
return handling applies the output converter's `return_output` to exactly the
constructed flag, and for a class-by-reference output the two flag values
select the copy versus live-reference return texts.  The closing conjunct
evaluates a concrete getter to `False`. -/
theorem c9_output_is_copy_flags :
    (∀ (f : CppField) (ti : TypeInfo),
      (mkGetterDefinition f ti).map FunctionDef.output_is_copy =
        (mkGetterDefinition f ti).map (fun _ => false)) ∧
    (∀ (f : CppField) (ti : TypeInfo),
      (mkSetterDefinition f ti).map FunctionDef.output_is_copy =
        (mkSetterDefinition f ti).map (fun _ => true)) ∧
    (∀ (cn : Str) (args : List Param) (ti : TypeInfo),
      (mkConstructorDefinition cn args ti).map FunctionDef.output_is_copy =
        (mkConstructorDefinition cn args ti).map (fun _ => true)) ∧
    (∀ (cn nm : Str) (args : List Param) (rt : Str) (ti : TypeInfo),
      (mkMethodDefinition cn nm args rt ti).map FunctionDef.output_is_copy =
        (mkMethodDefinition cn nm args rt ti).map (fun _ => true)) ∧
    (∀ (nm : Str) (args : List Param) (rt : Option Str) (ti : TypeInfo),
      (mkFunctionDefinition DefKind.freeFn nm args rt ti).map FunctionDef.output_is_copy =
        (mkFunctionDefinition DefKind.freeFn nm args rt ti).map (fun _ => true)) ∧
    (∀ (cfg : Config) (d : FunctionDef),
      (makeDef cfg d).return_output =
        d.output_type_converter.return_output d.output_is_copy) ∧
    (∀ (t : Str) (nm : Option Str),
      (classByRefConverter t nm).return_output true = chars "return wrap-as-copy(result)" ∧
      (classByRefConverter t nm).return_output false =
        chars "return wrap-as-reference(result)") ∧
    (mkGetterDefinition ⟨chars "x", chars "double", chars "A"⟩ demoTI).map
        FunctionDef.output_is_copy = Except.ok false := by
  have key : ∀ (kind : DefKind) (nm : Str) (args : List Param) (rt : Option Str)
      (ti : TypeInfo),
      (mkFunctionDefinition kind nm args rt ti).map FunctionDef.output_is_copy =
        (mkFunctionDefinition kind nm args rt ti).map
          (fun _ => output_is_copy_default kind) := by
    intro kind nm args rt ti
    unfold mkFunctionDefinition
    cases hl : convLoop ti args args 0 0 with
    | error e => rfl
    | ok tcs =>
      cases ho : create_type_converter rt none ti none with
      | error e => rfl
      | ok otc => rfl
  exact ⟨fun f ti => key _ _ _ _ _, fun f ti => key _ _ _ _ _,
    fun cn args ti => key _ _ _ _ _, fun cn nm args rt ti => key _ _ _ _ _,
    fun nm args rt ti => key _ _ _ _ _, fun cfg d => rfl,
    fun t nm => ⟨rfl, rfl⟩, by decide⟩

/-- C8: the declaration visitor appends every visited field, constructor and
method to its per-class buffers unconditionally — no type-conversion logic is
consulted, so no declared member can be dropped — and the emitted class block
is marked empty exactly when the class accumulated zero fields, zero
constructors and zero methods. -/
theorem c8_declaration_unconditional :
    (∀ (st : DeclState) (f : CppField),
      visit_fieldD st f = { st with fields := st.fields ++ [field_decl_text f] }) ∧
    (∀ (st : DeclState) (c : Ctor),
      visit_constructorD st c =
        { st with ctors := st.ctors ++ [constructor_decl_text c.name st.arguments]
                  arguments := [] }) ∧
    (∀ (cfg : Config) (st : DeclState) (m : Method),
      visit_methodD cfg st m =
        { st with methods := st.methods ++
            [method_decl_text m.result_type (replace_operator_decl m.name cfg) st.arguments]
                  arguments := [] }) ∧
    (∀ (st : DeclState) (c : Clazz),
      visit_classD st c =
        { st with
          output := st.output ++ [DeclItem.classDecl
            ⟨c.name, st.fields, st.ctors, st.methods,
              st.fields.length + st.methods.length + st.ctors.length == 0⟩]
          fields := []
          ctors := []
          methods := [] }) ∧
    (∀ (nm : Str) (fs cts ms : List Str),
      (ClassDeclBlock.mk nm fs cts ms
          (fs.length + ms.length + cts.length == 0)).empty_body = true ↔
        fs = [] ∧ cts = [] ∧ ms = []) := by
  refine ⟨fun st f => rfl, fun st c => rfl, fun cfg st m => rfl, fun st c => rfl, ?_⟩
  intro nm fs cts ms
  simp only [Nat.beq_eq_true_eq, Nat.add_eq_zero, List.length_eq_zero]
  constructor
  · rintro ⟨⟨hf, hm⟩, hc⟩
    exact ⟨hf, hc, hm⟩
  · rintro ⟨hf, hc, hm⟩
    exact ⟨⟨hf, hm⟩, hc⟩

/-- C4: on leaving a class, zero accumulated constructors yield exactly one
synthesized default constructor and no warning; more than one yields a block
keeping all accumulated constructor texts, of which the runtime-effective one
is the last visited, plus exactly one recorded warning; exactly one is emitted
unchanged with no warning.  The final conjunct shows the constructor buffer is
appended in visit order, so its last element is the last-visited
constructor. -/
theorem c4_constructor_count_policy :
    (∀ (st : ImplState) (c : Clazz), st.ctors = [] →
      visit_classI st c =
        { output := st.output ++ [OutputItem.classItem
            ⟨c.name, st.fields, [defaultCtorRendered c], st.methods⟩]
          ctors := []
          methods := []
          fields := []
          warnings := st.warnings }) ∧
    (∀ (st : ImplState) (c : Clazz), 1 < st.ctors.length →
      visit_classI st c =
        { output := st.output ++ [OutputItem.classItem
            ⟨c.name, st.fields, st.ctors, st.methods⟩]
          ctors := []
          methods := []
          fields := []
          warnings := st.warnings ++ [multiCtorWarning c.name] } ∧
      effective_ctor st.ctors = st.ctors.getLast? ∧
      (visit_classI st c).warnings.length = st.warnings.length + 1) ∧
    (∀ (st : ImplState) (c : Clazz), st.ctors.length = 1 →
      visit_classI st c =
        { output := st.output ++ [OutputItem.classItem
            ⟨c.name, st.fields, st.ctors, st.methods⟩]
          ctors := []
          methods := []
          fields := []
          warnings := st.warnings }) ∧
    (∀ (ti : TypeInfo) (cfg : Config) (st : ImplState) (c : Ctor) (d : FunctionDef),
      mkConstructorDefinition c.class_name c.arguments ti = Except.ok d →
      (visit_constructorI ti cfg st c).ctors = st.ctors ++ [makeDef cfg d]) := by
  refine ⟨?_, ?_, ?_, ?_⟩
  · intro st c h
    unfold visit_classI
    rw [h]
    rfl
  · intro st c h
    have hne : ¬(st.ctors.length = 0) := by omega
    refine ⟨?_, rfl, ?_⟩
    · unfold visit_classI
      rw [if_pos (by omega), if_neg hne]
    · unfold visit_classI
      rw [if_pos (by omega)]
      simp
  · intro st c h
    unfold visit_classI
    rw [if_neg (by omega), if_neg (by omega)]
  · intro ti cfg st c d h
    unfold visit_constructorI
    rw [h]

/-- Witness for C4: the three constructor-count cases and the append-in-order
fact at concrete states. -/
theorem c4_witness :
    visit_classI emptyImplState demoClassA =
      { output := [OutputItem.classItem
          ⟨chars "A", [], [defaultCtorRendered demoClassA], []⟩]
        ctors := []
        methods := []
        fields := []
        warnings := [] } ∧
    (visit_classI demoCtorState2 demoClassA).warnings.length = 1 ∧
    (visit_classI demoCtorState1 demoClassA).warnings = [] ∧
    (visit_constructorI demoTI demoCfg emptyImplState
        (Ctor.mk (chars "A") (chars "A") [])).ctors = [makeDef demoCfg demoCtorDef] := by
  refine ⟨?_, ?_, ?_, ?_⟩
  · have h1 := c4_constructor_count_policy.1 emptyImplState demoClassA rfl
    rw [h1]
    decide
  · have h2 := c4_constructor_count_policy.2.1 demoCtorState2 demoClassA (by decide)
    rw [h2.2.2]
    decide
  · have h3 := c4_constructor_count_policy.2.2.1 demoCtorState1 demoClassA (by decide)
    rw [h3]
    decide
  · have h4 := c4_constructor_count_policy.2.2.2 demoTI demoCfg emptyImplState
      (Ctor.mk (chars "A") (chars "A") []) demoCtorDef (by decide)
    rw [h4]
    rfl

theorem ImplState.append_assoc (a b c : ImplState) :
    (a.append b).append c = a.append (b.append c) := by
  simp [ImplState.append, List.append_assoc]

theorem ImplState.append_empty (a : ImplState) : a.append emptyImplState = a := by
  cases a
  simp [ImplState.append, emptyImplState]

/-- Every member visit only appends to the state: the result is the input
state extended componentwise by what the visit produces from the empty
state. -/
theorem visit_append (ti : TypeInfo) (cfg : Config) (st : ImplState) (m : Member) :
    visitMember ti cfg st m = st.append (visitMember ti cfg emptyImplState m) := by
  cases m with
  | fieldM f =>
    dsimp only [visitMember, visit_fieldI]
    cases h : buildFieldEntry ti cfg f <;>
      simp [ImplState.append, emptyImplState]
  | ctorM c =>
    dsimp only [visitMember, visit_constructorI]
    cases h : mkConstructorDefinition c.class_name c.arguments ti <;>
      simp [ImplState.append, emptyImplState]
  | methodM m =>
    dsimp only [visitMember, visit_methodI]
    cases h : mkMethodDefinition m.class_name m.name m.arguments m.result_type ti <;>
      simp [ImplState.append, emptyImplState]
  | funcM f =>
    dsimp only [visitMember, visit_functionI]
    cases h : mkFunctionDefinition DefKind.freeFn f.name f.arguments (some f.result_type) ti <;>
      simp [ImplState.append, emptyImplState]

theorem runMembers_append (ti : TypeInfo) (cfg : Config) :
    ∀ (ms : List Member) (st : ImplState),
      runMembers ti cfg st ms = st.append (runMembers ti cfg emptyImplState ms) := by
  intro ms
  induction ms with
  | nil =>
    intro st
    show st = st.append emptyImplState
    exact (ImplState.append_empty st).symm
  | cons m ms ih =>
    intro st
    show runMembers ti cfg (visitMember ti cfg st m) ms =
      st.append (runMembers ti cfg (visitMember ti cfg emptyImplState m) ms)
    rw [ih (visitMember ti cfg st m), ih (visitMember ti cfg emptyImplState m)]
    rw [visit_append ti cfg st m, ImplState.append_assoc]

/-- A failing member contributes exactly one warning and nothing else. -/
theorem visit_fail_delta (ti : TypeInfo) (cfg : Config) (m : Member)
    (h : memberFails ti cfg m = true) :
    ∃ w, visitMember ti cfg emptyImplState m = ImplState.mk [] [] [] [] [w] := by
  cases m with
  | fieldM f =>
    dsimp only [memberFails] at h
    dsimp only [visitMember, visit_fieldI]
    cases hb : buildFieldEntry ti cfg f with
    | ok fe => rw [hb] at h; simp [isErr] at h
    | error e => exact ⟨_, rfl⟩
  | ctorM c =>
    dsimp only [memberFails] at h
    dsimp only [visitMember, visit_constructorI]
    cases hb : mkConstructorDefinition c.class_name c.arguments ti with
    | ok d => rw [hb] at h; simp [isErr] at h
    | error e => exact ⟨_, rfl⟩
  | methodM m =>
    dsimp only [memberFails] at h
    dsimp only [visitMember, visit_methodI]
    cases hb : mkMethodDefinition m.class_name m.name m.arguments m.result_type ti with
    | ok d => rw [hb] at h; simp [isErr] at h
    | error e => exact ⟨_, rfl⟩
  | funcM f =>
    dsimp only [memberFails] at h
    dsimp only [visitMember, visit_functionI]
    cases hb : mkFunctionDefinition DefKind.freeFn f.name f.arguments (some f.result_type) ti with
    | ok d => rw [hb] at h; simp [isErr] at h
    | error e => exact ⟨_, rfl⟩

/-- C2: per-member failure isolation.  If converter selection raises for any
argument or the return type of a callable, the visit leaves every accumulator
untouched and appends exactly one warning naming the member (for a field, the
single try block covers both accessors, so failure of either drops both); and
visiting a member sequence containing a failing member produces exactly the
buffers of the sequence without it, plus one warning — visiting of the
remaining members continues normally. -/
theorem c2_member_failure_isolation :
    (∀ (ti : TypeInfo) (cfg : Config) (st : ImplState) (f : CppField) (e : Str),
      buildFieldEntry ti cfg f = Except.error e →
      visit_fieldI ti cfg st f =
        { st with warnings := st.warnings ++
            [e ++ chars " Ignoring field '" ++ f.name ++ chars "'"] }) ∧
    (∀ (ti : TypeInfo) (cfg : Config) (st : ImplState) (c : Ctor) (e : Str),
      mkConstructorDefinition c.class_name c.arguments ti = Except.error e →
      visit_constructorI ti cfg st c =
        { st with warnings := st.warnings ++
            [e ++ chars " Ignoring method '" ++ c.name ++ chars "'"] }) ∧
    (∀ (ti : TypeInfo) (cfg : Config) (st : ImplState) (m : Method) (e : Str),
      mkMethodDefinition m.class_name m.name m.arguments m.result_type ti = Except.error e →
      visit_methodI ti cfg st m =
        { st with warnings := st.warnings ++
            [e ++ chars " Ignoring method '" ++ m.name ++ chars "'"] }) ∧
    (∀ (ti : TypeInfo) (cfg : Config) (st : ImplState) (fn : FreeFunction) (e : Str),
      mkFunctionDefinition DefKind.freeFn fn.name fn.arguments (some fn.result_type) ti =
        Except.error e →
      visit_functionI ti cfg st fn =
        { st with warnings := st.warnings ++
            [e ++ chars " Ignoring function '" ++ fn.name ++ chars "'"] }) ∧
    (∀ (ti : TypeInfo) (cfg : Config) (st : ImplState) (ms1 ms2 : List Member) (m : Member),
      memberFails ti cfg m = true →
      (runMembers ti cfg st (ms1 ++ m :: ms2)).output =
          (runMembers ti cfg st (ms1 ++ ms2)).output ∧
      (runMembers ti cfg st (ms1 ++ m :: ms2)).ctors =
          (runMembers ti cfg st (ms1 ++ ms2)).ctors ∧
      (runMembers ti cfg st (ms1 ++ m :: ms2)).methods =
          (runMembers ti cfg st (ms1 ++ ms2)).methods ∧
      (runMembers ti cfg st (ms1 ++ m :: ms2)).fields =
          (runMembers ti cfg st (ms1 ++ ms2)).fields ∧
      (runMembers ti cfg st (ms1 ++ m :: ms2)).warnings.length =
          (runMembers ti cfg st (ms1 ++ ms2)).warnings.length + 1) := by
  refine ⟨?_, ?_, ?_, ?_, ?_⟩
  · intro ti cfg st f e h
    dsimp only [visit_fieldI]
    rw [h]
  · intro ti cfg st c e h
    dsimp only [visit_constructorI]
    rw [h]
  · intro ti cfg st m e h
    dsimp only [visit_methodI]
    rw [h]
  · intro ti cfg st fn e h
    dsimp only [visit_functionI]
    rw [h]
  · intro ti cfg st ms1 ms2 m hf
    obtain ⟨w, hw⟩ := visit_fail_delta ti cfg m hf
    have e1 : runMembers ti cfg st (ms1 ++ m :: ms2) =
        ((runMembers ti cfg st ms1).append (ImplState.mk [] [] [] [] [w])).append
          (runMembers ti cfg emptyImplState ms2) := by
      have hsplit : runMembers ti cfg st (ms1 ++ m :: ms2) =
          runMembers ti cfg (visitMember ti cfg (runMembers ti cfg st ms1) m) ms2 := by
        simp [runMembers, List.foldl_append]
      rw [hsplit, visit_append ti cfg (runMembers ti cfg st ms1) m, hw,
        runMembers_append ti cfg ms2]
    have e2 : runMembers ti cfg st (ms1 ++ ms2) =
        (runMembers ti cfg st ms1).append (runMembers ti cfg emptyImplState ms2) := by
      have hsplit : runMembers ti cfg st (ms1 ++ ms2) =
          runMembers ti cfg (runMembers ti cfg st ms1) ms2 := by
        simp [runMembers, List.foldl_append]
      rw [hsplit, runMembers_append ti cfg ms2]
    rw [e1, e2]
    refine ⟨?_, ?_, ?_, ?_, ?_⟩ <;> simp [ImplState.append] <;> omega

/-- Witness for C2: the failing field drops both accessors, leaves the
accumulators empty, records exactly one warning naming the field, and a member
sequence around it is processed as if the failing member were absent. -/
theorem c2_witness :
    (visit_fieldI demoTI demoCfg emptyImplState demoBadField).fields = [] ∧
    (visit_fieldI demoTI demoCfg emptyImplState demoBadField).warnings =
      [chars "No type converter available for type 'FooBar'." ++
        chars " Ignoring field '" ++ chars "x" ++ chars "'"] ∧
    (runMembers demoTI demoCfg emptyImplState
        ([Member.funcM demoFn] ++ Member.fieldM demoBadField :: [Member.funcM demoFn])).output =
      (runMembers demoTI demoCfg emptyImplState
        ([Member.funcM demoFn] ++ [Member.funcM demoFn])).output := by
  have h1 := c2_member_failure_isolation.1 demoTI demoCfg emptyImplState demoBadField
    (chars "No type converter available for type 'FooBar'.") (by decide)
  have h5 := (c2_member_failure_isolation.2.2.2.2 demoTI demoCfg emptyImplState
    [Member.funcM demoFn] [Member.funcM demoFn] (Member.fieldM demoBadField) (by decide)).1
  refine ⟨?_, ?_, h5⟩
  · rw [h1]
    decide
  · rw [h1]
    decide

theorem pySplitAux_head_single (p : Char) :
    ∀ n cur s, s.length ≤ n →
      (pySplitAux p [] n cur s).headD [] =
        cur.reverse ++ s.takeWhile (fun c => !(c == p)) := by
  intro n
  induction n with
  | zero =>
    intro cur s h1
    have hs : s = [] := List.eq_nil_of_length_eq_zero (Nat.le_zero.mp h1)
    subst hs
    simp [pySplitAux]
  | succ n ih =>
    intro cur s h1
    cases s with
    | nil => simp [pySplitAux]
    | cons c rest =>
      have hr : rest.length ≤ n := Nat.le_of_succ_le_succ (by simpa using h1)
      simp only [pySplitAux, List.takeWhile]
      by_cases hcp : c = p
      · subst hcp
        have hp : ([c] : Str).isPrefixOf (c :: rest) = true := by
          simp [List.isPrefixOf]
        rw [if_pos hp]
        simp
      · have hp : ¬(([p] : Str).isPrefixOf (c :: rest) = true) := by
          simp [List.isPrefixOf]
          intro h
          exact absurd h.symm hcp
        rw [if_neg hp]
        rw [ih (c :: cur) rest hr]
        have hbeq : (c == p) = false := by
          simp [hcp]
        rw [hbeq]
        simp

/-- C7: the derivation clause as stated is false — for the input file
`"a.b.h"` the code derives the module name `"a"` (everything from the FIRST
dot on is dropped), not the base name stripped of its extension, which would
be `"a.b"`. -/
theorem c7_counterexample :
    _derive_module_name_from (chars "a.b.h") = chars "a" ∧
    claimC7_strip (chars "a.b.h") = chars "a.b" ∧
    _derive_module_name_from (chars "a.b.h") ≠ claimC7_strip (chars "a.b.h") := by
  exact ⟨by decide, by decide, by decide⟩

/-- C7 (amended): with more than one input file and no explicit module name,
the run fails with the module-name error before any parsing, generation or
artifact emission (the result is this error for EVERY possible parser, and no
results are produced); with exactly one input file and no explicit name, the
derived module name is the file's base name truncated at its FIRST dot, and
the run behaves exactly as if that derived name had been supplied explicitly
(the run itself still aborts later on the exporter-constructor arity
`TypeError`, so the name reaches no artifact). -/
theorem c7_amended_module_naming :
    (∀ (parse : Str → Ast) (files : List Str),
      2 ≤ files.length →
      make_cython_wrapper parse (FilenamesArg.list files) none =
        Except.error missingModuleNameError) ∧
    (∀ f : Str, _derive_module_name_from f =
      ((pySplitList '/' [] f).getLastD []).takeWhile (fun c => !(c == '.'))) ∧
    (∀ (parse : Str → Ast) (f : Str),
      make_cython_wrapper parse (FilenamesArg.list [f]) none =
        make_cython_wrapper parse (FilenamesArg.list [f])
          (some (_derive_module_name_from f))) := by
  refine ⟨?_, ?_, ?_⟩
  · intro parse files hlen
    unfold make_cython_wrapper
    dsimp only []
    rw [if_neg (by intro hcon; omega)]
  · intro f
    unfold _derive_module_name_from pySplitList
    rw [pySplitAux_head_single '.' _ [] _ (Nat.le_refl _)]
    rfl
  · intro parse f
    unfold make_cython_wrapper
    dsimp only []
    rw [if_pos ⟨rfl, rfl⟩, if_neg (by simp)]
    rfl

/-- Witness for C7 (amended): two files and no name abort with the
module-name error; one file behaves as if its first-dot-truncated base name
had been supplied explicitly. -/
theorem c7_amended_witness :
    make_cython_wrapper trivialParse
        (FilenamesArg.list [chars "a.h", chars "b.h"]) none =
      Except.error missingModuleNameError ∧
    make_cython_wrapper trivialParse (FilenamesArg.list [chars "dir/foo.h"]) none =
      make_cython_wrapper trivialParse (FilenamesArg.list [chars "dir/foo.h"])
        (some (chars "foo")) := by
  constructor
  · exact c7_amended_module_naming.1 trivialParse [chars "a.h", chars "b.h"] (by decide)
  · have h := c7_amended_module_naming.2.2 trivialParse (chars "dir/foo.h")
    rw [h]
    decide

/-- C10: a single string passed as `filenames` behaves exactly like the
one-element list containing it, for every parser and module name — the string
is wrapped into a one-element list before anything else runs, so the
equivalence covers the error outcomes (the module-name check and the
exporter-arity abort) as well; in particular module-name derivation from the
file's base name applies to the string form: with no explicit name, the string
form behaves exactly as the list form given the derived name. -/
theorem c10_string_filenames_equivalence :
    (∀ (parse : Str → Ast) (s : Str) (mn : Option Str),
      make_cython_wrapper parse (FilenamesArg.str s) mn =
        make_cython_wrapper parse (FilenamesArg.list [s]) mn) ∧
    (∀ (parse : Str → Ast) (s : Str),
      make_cython_wrapper parse (FilenamesArg.str s) none =
        make_cython_wrapper parse (FilenamesArg.list [s])
          (some (_derive_module_name_from s))) := by
  constructor
  · intro parse s mn
    rfl
  · intro parse s
    unfold make_cython_wrapper
    dsimp only []
    rw [if_pos ⟨rfl, rfl⟩, if_neg (by simp)]
    rfl
